import Mathlib

/-!
# Verification of the swift account server request handlers

Shallow embedding of `swift/account/server.py` (class `AccountController`).

The handlers themselves are translated directly from the Python source.
The external collaborators (`AccountBroker`, `swift.common.utils`,
`swift.common.constraints`) are not part of the repository sources; they are
modelled from the specification and marked as such in their doc comments.

Conventions:
* Timestamps are rationals (`ℚ`): the spec says timestamps are totally
  ordered values comparable as real numbers.
* A header whose value must parse as a number is an `Option HeaderVal`:
  `none` is a missing (or empty, hence falsy) header, `.num q` a header
  string parsing to the number `q`, `.malformed` a non-empty string that
  does not parse as a float.
* Headers used verbatim as strings (the container PUT timestamps and
  counters) are `Option String`; Python's string comparison `>` is
  code-point lexicographic, exactly Lean's `String` order
  (`List.lt` over `Char` ordered by code point).
* A handler returns the (possibly updated) broker state together with a
  `HandlerResult`: either a structured response or `.raised`, an exception
  escaping the handler, which the dispatcher's catch-all converts to a 500.
* `mountOk` stands for the value of
  `not (self.mount_check and not check_mount(self.root, drive))`:
  unmounted devices yield 507 before the broker is touched.
* Response bodies and the success-side info headers (counters, created_at,
  echoed metadata) are elided: no claim references them.  The one response
  header the claims do reference, `X-Account-Status`, is kept.
-/

namespace SwiftAccount

/-- A numeric-header value: the abstraction of an HTTP header string that is
fed to `check_float` / `normalize_timestamp`. -/
inductive HeaderVal where
  | num (q : ℚ)
  | malformed
  deriving Repr, DecidableEq

/-- Modelled from the spec: `check_float` from `swift.common.utils` — true
exactly when the header string parses as a number. -/
def check_float : HeaderVal → Bool
  | .num _ => true
  | .malformed => false

/-- The numeric value of a header that passed `check_float`. -/
def HeaderVal.val : HeaderVal → ℚ
  | .num q => q
  | .malformed => 0

/-- Modelled from the spec: `normalize_timestamp` converts the header string
to the fixed-format timestamp, preserving its numeric value; a string that is
not a valid float raises `ValueError` (modelled as `.error`). -/
def normalize_timestamp : HeaderVal → Except Unit ℚ
  | .num q => .ok q
  | .malformed => .error ()

/-- One container row of an account database, as written by
`put_container`: the handler passes the four header strings through
verbatim. -/
structure ContainerRow where
  name : String
  put_ts : String
  delete_ts : String
  object_count : String
  bytes_used : String
  deriving Repr, DecidableEq

/-- The persistent state of one account record (the broker's view).
`status_deleted` is the explicit "recently deleted" status marker, distinct
from the logical deletion derived from the timestamps. -/
structure AccountInfo where
  created_at : ℚ
  put_timestamp : ℚ
  delete_timestamp : ℚ
  status_deleted : Bool
  metadata : List (String × String × ℚ)
  containers : List ContainerRow
  deriving Repr, DecidableEq

/-- Broker state: `none` means the database file does not exist. -/
abbrev AccountState := Option AccountInfo

/-- Modelled from the spec: `AccountBroker.is_deleted`.  The spec's
invariant: "An Account is Deleted iff `delete_timestamp > put_timestamp`";
a database file that does not exist also counts as deleted (spec example 6:
HEAD on a never-created account is a 404). -/
def is_deleted : AccountState → Bool
  | none => true
  | some info => decide (info.put_timestamp < info.delete_timestamp)

/-- Modelled from the spec: `AccountBroker.initialize` — "initializing a
brand-new record at a given timestamp".  The delete timestamp starts at 0
and the status marker is clear. -/
def initRecord (ts : ℚ) : AccountInfo :=
  { created_at := ts, put_timestamp := ts, delete_timestamp := 0,
    status_deleted := false, metadata := [], containers := [] }

/-- Modelled from the spec: `AccountBroker.update_put_timestamp` — "advance
`put_timestamp` to the max of current and given (never regress)". -/
def update_put_timestamp (ts : ℚ) (info : AccountInfo) : AccountInfo :=
  { info with put_timestamp := max info.put_timestamp ts }

/-- Modelled from the spec: `AccountBroker.delete_db` — "tombstone at the
given timestamp"; the record is marked with the explicit deleted status
(spec example 2: a GET after a DELETE is a 404 carrying
`X-Account-Status: Deleted`). -/
def delete_db (ts : ℚ) (info : AccountInfo) : AccountInfo :=
  { info with delete_timestamp := ts, status_deleted := true }

/-- Modelled from the spec: `AccountBroker.put_container` — "always write
the given put/delete timestamps and counters"; an upsert keyed by the
container name. -/
def put_container (name put_ts delete_ts object_count bytes_used : String)
    (info : AccountInfo) : AccountInfo :=
  { info with containers :=
      ⟨name, put_ts, delete_ts, object_count, bytes_used⟩ ::
        info.containers.filter (fun row => row.name ≠ name) }

/-- Modelled from the spec: `AccountBroker.update_metadata` — per key, the
entry "whichever timestamp is newer" wins; the stored value is kept on an
exact tie. -/
def metaMerge (old upd : List (String × String × ℚ)) :
    List (String × String × ℚ) :=
  upd.foldl (fun acc kvt =>
    match acc.find? (fun e => e.1 == kvt.1) with
    | none => acc ++ [kvt]
    | some e =>
        if e.2.2 < kvt.2.2 then
          acc.map (fun x => if x.1 == kvt.1 then kvt else x)
        else acc) old

/-- Python's `str.lower()` (restricted to ASCII), applied character by
character. -/
def strLower (s : String) : String := ⟨s.data.map Char.toLower⟩

/-- The metadata update a mutating handler assembles: every request header
in the `x-account-meta-` namespace, stamped with the request timestamp. -/
def metaFromHeaders (hs : List (String × String)) (ts : ℚ) :
    List (String × String × ℚ) :=
  (hs.filter (fun kv => (strLower kv.1).startsWith "x-account-meta-")).map
    (fun kv => (kv.1, kv.2, ts))

/-- `if metadata: broker.update_metadata(metadata)` as done by PUT and
POST. -/
def applyMeta (hs : List (String × String)) (ts : ℚ) (info : AccountInfo) :
    AccountInfo :=
  let m := metaFromHeaders hs ts
  if m.isEmpty then info else { info with metadata := metaMerge info.metadata m }

/-- A structured response: status code plus the one header the claims
inspect. -/
structure Response where
  status : ℕ
  accountStatus : Option String
  deriving Repr, DecidableEq

/-- A plain response carrying no `X-Account-Status` header. -/
def mkResp (n : ℕ) : Response := { status := n, accountStatus := none }

/-- `AccountController._deleted_response`: attach `X-Account-Status:
Deleted` when the record exists and `is_status_deleted` holds; the
`DatabaseConnectionError` of a missing database is caught and yields no
header. -/
def deletedResponse (st : AccountState) (status : ℕ) : Response :=
  match st with
  | none => { status := status, accountStatus := none }
  | some info =>
      { status := status,
        accountStatus := if info.status_deleted then some "Deleted" else none }

/-- The outcome of running one handler body: a response, or an exception
escaping the handler (caught by the dispatcher's catch-all). -/
inductive HandlerResult where
  | resp (r : Response)
  | raised
  deriving Repr, DecidableEq

/-- `AccountController.DELETE` (after path parsing).  Note that the broker's
`is_deleted` is true for a missing database file, so the `none` case of the
match takes the same 404 branch the Python code takes. -/
def DELETE (mountOk : Bool) (xTimestamp : Option HeaderVal)
    (st : AccountState) : AccountState × HandlerResult :=
  if mountOk = false then (st, .resp (mkResp 507))
  else
    match xTimestamp with
    | none => (st, .resp (mkResp 400))
    | some v =>
      if check_float v = false then (st, .resp (mkResp 400))
      else
        match st with
        | none => (st, .resp (deletedResponse none 404))
        | some info =>
          if is_deleted (some info) then
            (some info, .resp (deletedResponse (some info) 404))
          else
            let info' := delete_db v.val info
            (some info', .resp (deletedResponse (some info') 204))

/-- The request headers of an account PUT. -/
structure AccountPutReq where
  xTimestamp : Option HeaderVal
  headers : List (String × String)
  deriving Repr, DecidableEq

/-- `AccountController.PUT`, account branch (no container in the path).
A missing `X-Timestamp` header is a `KeyError` and a malformed one a
`ValueError` inside `normalize_timestamp`; both escape the handler
(`.raised`).  On the 409 path the advanced put timestamp has already been
stored. -/
def PUT_account (mountOk : Bool) (req : AccountPutReq)
    (st : AccountState) : AccountState × HandlerResult :=
  if mountOk = false then (st, .resp (mkResp 507))
  else
    match req.xTimestamp with
    | none => (st, .raised)
    | some v =>
      match normalize_timestamp v with
      | .error _ => (st, .raised)
      | .ok timestamp =>
        match st with
        | none =>
            let info := applyMeta req.headers timestamp (initRecord timestamp)
            (some info, .resp (mkResp 201))
        | some info =>
          if info.status_deleted then
            (some info, .resp (deletedResponse (some info) 403))
          else
            let created := is_deleted (some info)
            let info' := update_put_timestamp timestamp info
            if is_deleted (some info') then
              (some info', .resp (mkResp 409))
            else
              let info'' := applyMeta req.headers timestamp info'
              (some info'', .resp (if created then mkResp 201 else mkResp 202))

/-- Server configuration relevant to the handlers. -/
structure Conf where
  autoCreatePfx : String
  replicationServer : Option Bool
  deriving Repr, DecidableEq

/-- The request of a container PUT (account PUT with a container path
segment).  The four container headers are used verbatim as strings. -/
structure ContainerPutReq where
  account : String
  container : String
  xTimestamp : Option HeaderVal
  xPutTimestamp : Option String
  xDeleteTimestamp : Option String
  xObjectCount : Option String
  xBytesUsed : Option String
  xOverrideDeleted : Option String
  deriving Repr, DecidableEq

/-- `AccountController.PUT`, container branch.  `now` is the wall-clock
time used when an auto-create account is initialized without an
`X-Timestamp` header.  A missing container header is a `KeyError`, and
`put_container` on a missing database raises `DatabaseConnectionError`;
both escape the handler.  The Python comparison
`x-delete-timestamp > x-put-timestamp` is a comparison of the raw header
strings, i.e. code-point lexicographic. -/
def PUT_container (conf : Conf) (mountOk : Bool) (now : ℚ)
    (req : ContainerPutReq) (st : AccountState) :
    AccountState × HandlerResult :=
  if mountOk = false then (st, .resp (mkResp 507))
  else
    let stInit : Except Unit AccountState :=
      if req.account.startsWith conf.autoCreatePfx && st.isNone then
        match req.xTimestamp with
        | some v => (normalize_timestamp v).map (fun ts => some (initRecord ts))
        | none => .ok (some (initRecord now))
      else .ok st
    match stInit with
    | .error _ => (st, .raised)
    | .ok st1 =>
      if (strLower (req.xOverrideDeleted.getD "no") != "yes") && is_deleted st1 then
        (st1, .resp (mkResp 404))
      else
        match req.xPutTimestamp, req.xDeleteTimestamp,
            req.xObjectCount, req.xBytesUsed with
        | some putTs, some delTs, some objC, some byU =>
          match st1 with
          | none => (st1, .raised)
          | some info =>
            let info' := put_container req.container putTs delTs objC byU info
            if putTs < delTs then (some info', .resp (mkResp 204))
            else (some info', .resp (mkResp 201))
        | _, _, _, _ => (st1, .raised)

/-- `AccountController.HEAD` (after path parsing).  `ctypeOk` is whether
content negotiation found an acceptable type (it runs before the mount
check).  The success headers are elided. -/
def HEAD (ctypeOk mountOk : Bool) (st : AccountState) : HandlerResult :=
  if ctypeOk = false then .resp (mkResp 406)
  else if mountOk = false then .resp (mkResp 507)
  else if is_deleted st then .resp (deletedResponse st 404)
  else .resp (mkResp 204)

/-- Modelled from the spec: `ACCOUNT_LISTING_LIMIT` from
`swift.common.constraints` — "a fixed hard maximum" for the listing
`limit` parameter. -/
def ACCOUNT_LISTING_LIMIT : ℕ := 10000

/-- The numeric value of a decimal digit character. -/
def digitVal (c : Char) : ℕ := c.toNat - 48

/-- The number denoted by a list of decimal digit characters (Python's
`int()` on a digit string). -/
def digitsToNat (l : List Char) : ℕ := l.foldl (fun a c => 10 * a + digitVal c) 0

/-- The number denoted by a decimal digit string. -/
def strToNat (s : String) : ℕ := digitsToNat s.data

/-- Python's `str.isdigit` restricted to ASCII: non-empty and all digits. -/
def isdigit (s : String) : Bool := !s.isEmpty && s.data.all Char.isDigit

/-- The query parameters of a GET (already percent- and UTF-8-decoded). -/
structure GetReq where
  qPrefix : Option String
  delimiter : Option String
  limit : Option String
  marker : Option String
  endMarker : Option String
  deriving Repr, DecidableEq

/-- The outcome of `AccountController.GET`.  `listing` is the one
constructor in which the broker's listing query runs; its arguments are
exactly what is handed to `account_listing_response`. -/
inductive GetResult where
  | badDelimiter
  | badLimit
  | notAcceptable
  | unmounted
  | notFound (r : Response)
  | listing (limit : ℕ) (marker : String) (endMarker : Option String)
      (qPrefix : Option String) (delimiter : Option String)
  deriving Repr, DecidableEq

/-- The HTTP status of a `GetResult` (`listing` statuses, 200 or 204, are
produced by the external `account_listing_response`; 200 is
representative). -/
def GetResult.status : GetResult → ℕ
  | .badDelimiter => 412
  | .badLimit => 412
  | .notAcceptable => 406
  | .unmounted => 507
  | .notFound r => r.status
  | .listing _ _ _ _ _ => 200

/-- The tail of the GET handler, after the parameter checks: content
negotiation, mount check, deletion check, then the broker listing query. -/
def GETrest (ctypeOk mountOk : Bool) (req : GetReq) (limit : ℕ)
    (st : AccountState) : GetResult :=
  if ctypeOk = false then .notAcceptable
  else if mountOk = false then .unmounted
  else if is_deleted st then .notFound (deletedResponse st 404)
  else .listing limit (req.marker.getD "") req.endMarker req.qPrefix req.delimiter

/-- `AccountController.GET` (after path parsing).  The delimiter check is
`if delimiter and (len(delimiter) > 1 or ord(delimiter) > 254)`; the limit
parameter is consulted only when it `isdigit()`, and rejected only when
its value exceeds `ACCOUNT_LISTING_LIMIT`. -/
def GET (ctypeOk mountOk : Bool) (req : GetReq) (st : AccountState) :
    GetResult :=
  let delimBad :=
    match req.delimiter with
    | none => false
    | some d => !d.isEmpty && (decide (1 < d.length) || decide (254 < (d.data.headD 'a').toNat))
  if delimBad then .badDelimiter
  else
    match req.limit with
    | some gl =>
      if isdigit gl then
        if ACCOUNT_LISTING_LIMIT < strToNat gl then .badLimit
        else GETrest ctypeOk mountOk req (strToNat gl) st
      else GETrest ctypeOk mountOk req ACCOUNT_LISTING_LIMIT st
    | none => GETrest ctypeOk mountOk req ACCOUNT_LISTING_LIMIT st

/-- `AccountController.POST` (after path parsing).  The timestamp check
runs before the mount check. -/
def POST (mountOk : Bool) (xTimestamp : Option HeaderVal)
    (hs : List (String × String)) (st : AccountState) :
    AccountState × HandlerResult :=
  match xTimestamp with
  | none => (st, .resp (mkResp 400))
  | some v =>
    if check_float v = false then (st, .resp (mkResp 400))
    else if mountOk = false then (st, .resp (mkResp 507))
    else
      match st with
      | none => (st, .resp (deletedResponse none 404))
      | some info =>
        if is_deleted (some info) then
          (some info, .resp (deletedResponse (some info) 404))
        else
          let info' := applyMeta hs v.val info
          (some info', .resp (mkResp 204))

/-- `AccountController.REPLICATE` (after path parsing): mount check, body
parse, then the external replication engine's response verbatim. -/
def REPLICATE (mountOk bodyOk : Bool) (rpcResponse : Response) : HandlerResult :=
  if mountOk = false then .resp (mkResp 507)
  else if bodyOk = false then .resp (mkResp 400)
  else .resp rpcResponse

/-- The handler methods carrying the `@public` decorator. -/
def publicMethods : List String := ["DELETE", "PUT", "HEAD", "GET", "POST", "REPLICATE"]

/-- Whether `getattr(self, method)` finds a handler carrying
`publicly_accessible`; every other attribute lookup path raises
`AttributeError`. -/
def isPublicMethod (m : String) : Bool := publicMethods.contains m

/-- Whether the resolved handler carries the `replication` marker
(`getattr(method, 'replication', False)`). -/
def isReplicationMethod (m : String) : Bool := m == "REPLICATE"

/-- The dispatcher's gate in `AccountController.__call__`: the method must
be a public handler, and when `replication_server` is configured it must
equal the handler's replication marker. -/
def methodAllowed (replicationServer : Option Bool) (m : String) : Bool :=
  isPublicMethod m &&
    match replicationServer with
    | none => true
    | some rs => rs == isReplicationMethod m

/-- The dispatcher's catch-all: an exception escaping a handler becomes an
internal-error response. -/
def serveResult : HandlerResult → Response
  | .resp r => r
  | .raised => mkResp 500

/-- `AccountController.__call__` around one handler invocation: a
disallowed method is a 405 and the handler is never run; otherwise the
handler runs under the catch-all. -/
def dispatch (replicationServer : Option Bool) (m : String)
    (run : HandlerResult) : Response :=
  if methodAllowed replicationServer m then serveResult run
  else mkResp 405

/-! ## Order of digit strings

Python compares the container PUT timestamp headers as strings.  The
following lemmas relate that code-point lexicographic order to the numeric
value of a digit string: for two digit strings of equal length (such as
fixed-format normalized timestamps) the two orders coincide. -/

lemma char_lt_iff_toNat {a b : Char} : a < b ↔ a.toNat < b.toNat := Iff.rfl

lemma isDigit_bounds {c : Char} (h : c.isDigit = true) :
    48 ≤ c.toNat ∧ c.toNat ≤ 57 := by
  simp [Char.isDigit] at h
  exact ⟨h.1, h.2⟩

lemma digitVal_le {c : Char} (h : c.isDigit = true) : digitVal c ≤ 9 := by
  have := isDigit_bounds h
  simp [digitVal]
  omega

lemma char_lt_iff_digitVal {a b : Char} (ha : a.isDigit = true)
    (hb : b.isDigit = true) : a < b ↔ digitVal a < digitVal b := by
  have h1 := isDigit_bounds ha
  have h2 := isDigit_bounds hb
  rw [char_lt_iff_toNat]
  simp [digitVal]
  omega

lemma char_eq_of_not_lt {a b : Char} (h1 : ¬ a < b) (h2 : ¬ b < a) : a = b :=
  le_antisymm (le_of_not_lt h2) (le_of_not_lt h1)

lemma digitsToNat_fold (a : ℕ) (l : List Char) :
    l.foldl (fun x c => 10 * x + digitVal c) a
      = a * 10 ^ l.length + digitsToNat l := by
  induction l generalizing a with
  | nil => simp [digitsToNat]
  | cons c t ih =>
      simp only [List.foldl_cons, List.length_cons, digitsToNat]
      rw [ih (10 * a + digitVal c), ih (10 * 0 + digitVal c)]
      ring

lemma digitsToNat_cons (c : Char) (t : List Char) :
    digitsToNat (c :: t) = digitVal c * 10 ^ t.length + digitsToNat t := by
  show (c :: t).foldl (fun x c => 10 * x + digitVal c) 0 = _
  simp only [List.foldl_cons]
  rw [digitsToNat_fold]
  ring_nf

lemma digitsToNat_lt {l : List Char} (h : l.all Char.isDigit = true) :
    digitsToNat l < 10 ^ l.length := by
  induction l with
  | nil => simp [digitsToNat]
  | cons c t ih =>
      simp only [List.all_cons, Bool.and_eq_true] at h
      have hc := digitVal_le h.1
      have ht := ih h.2
      rw [digitsToNat_cons]
      have : digitVal c * 10 ^ t.length ≤ 9 * 10 ^ t.length :=
        Nat.mul_le_mul_right _ hc
      calc digitVal c * 10 ^ t.length + digitsToNat t
          < digitVal c * 10 ^ t.length + 10 ^ t.length := by omega
        _ ≤ 9 * 10 ^ t.length + 10 ^ t.length := by omega
        _ = 10 ^ (t.length + 1) := by ring
        _ = 10 ^ (c :: t).length := by simp

lemma block_lt {P a b x y : ℕ} (hx : x < P) (hy : y < P) :
    a * P + x < b * P + y ↔ a < b ∨ (a = b ∧ x < y) := by
  constructor
  · intro h
    rcases lt_trichotomy a b with hab | hab | hab
    · exact Or.inl hab
    · subst hab
      exact Or.inr ⟨rfl, by omega⟩
    · exfalso
      have h1 : (b + 1) * P ≤ a * P := Nat.mul_le_mul_right _ hab
      have : b * P + P ≤ a * P := by
        calc b * P + P = (b + 1) * P := by ring
          _ ≤ a * P := h1
      omega
  · intro h
    rcases h with hab | ⟨hab, hxy⟩
    · have h1 : (a + 1) * P ≤ b * P := Nat.mul_le_mul_right _ hab
      have : a * P + P ≤ b * P := by
        calc a * P + P = (a + 1) * P := by ring
          _ ≤ b * P := h1
      omega
    · subst hab
      omega

lemma char_eq_of_digitVal_eq {a b : Char} (ha : a.isDigit = true)
    (hb : b.isDigit = true) (h : digitVal a = digitVal b) : a = b := by
  have h1 := isDigit_bounds ha
  have h2 := isDigit_bounds hb
  have htn : a.toNat = b.toNat := by
    simp [digitVal] at h
    omega
  have := congrArg Char.ofNat htn
  simpa using this

lemma lex_lt_iff_digitsToNat :
    ∀ (l1 l2 : List Char), l1.length = l2.length →
      l1.all Char.isDigit = true → l2.all Char.isDigit = true →
      (List.Lex (· < ·) l1 l2 ↔ digitsToNat l1 < digitsToNat l2)
  | [], [], _, _, _ => by
      constructor
      · intro h
        cases h
      · intro h
        simp [digitsToNat] at h
  | [], c2 :: t2, hlen, _, _ => by simp at hlen
  | c1 :: t1, [], hlen, _, _ => by simp at hlen
  | c1 :: t1, c2 :: t2, hlen, h1, h2 => by
      simp only [List.length_cons, Nat.add_right_cancel_iff] at hlen
      simp only [List.all_cons, Bool.and_eq_true] at h1 h2
      have ih := lex_lt_iff_digitsToNat t1 t2 hlen h1.2 h2.2
      rw [digitsToNat_cons, digitsToNat_cons, hlen,
        block_lt (by rw [← hlen]; exact digitsToNat_lt h1.2) (digitsToNat_lt h2.2)]
      constructor
      · intro h
        cases h with
        | cons htail =>
            exact Or.inr ⟨rfl, ih.mp htail⟩
        | rel hc =>
            exact Or.inl ((char_lt_iff_digitVal h1.1 h2.1).mp hc)
      · intro h
        rcases h with hd | ⟨hd, ht⟩
        · exact List.Lex.rel ((char_lt_iff_digitVal h1.1 h2.1).mpr hd)
        · have hceq : c1 = c2 := char_eq_of_digitVal_eq h1.1 h2.1 hd
          subst hceq
          exact List.Lex.cons (ih.mpr ht)

lemma string_lt_iff_strToNat {s t : String} (hlen : s.length = t.length)
    (hs : s.data.all Char.isDigit = true) (ht : t.data.all Char.isDigit = true) :
    s < t ↔ strToNat s < strToNat t := by
  rw [String.lt_iff_toList_lt]
  exact lex_lt_iff_digitsToNat s.data t.data hlen hs ht


/-! ## Helper lemmas -/

lemma applyMeta_put_timestamp (hs : List (String × String)) (ts : ℚ)
    (info : AccountInfo) :
    (applyMeta hs ts info).put_timestamp = info.put_timestamp := by
  unfold applyMeta
  by_cases h : (metaFromHeaders hs ts).isEmpty <;> simp [h]

lemma applyMeta_delete_timestamp (hs : List (String × String)) (ts : ℚ)
    (info : AccountInfo) :
    (applyMeta hs ts info).delete_timestamp = info.delete_timestamp := by
  unfold applyMeta
  by_cases h : (metaFromHeaders hs ts).isEmpty <;> simp [h]

lemma applyMeta_status_deleted (hs : List (String × String)) (ts : ℚ)
    (info : AccountInfo) :
    (applyMeta hs ts info).status_deleted = info.status_deleted := by
  unfold applyMeta
  by_cases h : (metaFromHeaders hs ts).isEmpty <;> simp [h]

lemma deletedResponse_status (st : AccountState) (n : ℕ) :
    (deletedResponse st n).status = n := by
  cases st <;> simp [deletedResponse]

lemma deletedResponse_header (st : AccountState) (n : ℕ) :
    (deletedResponse st n).accountStatus = some "Deleted" ↔
      ∃ i, st = some i ∧ i.status_deleted = true := by
  cases st with
  | none => simp [deletedResponse]
  | some i => cases h : i.status_deleted <;> simp [deletedResponse, h]


/-! ## Claim theorems -/

lemma is_deleted_some (i : AccountInfo) :
    is_deleted (some i) = decide (i.put_timestamp < i.delete_timestamp) := rfl

lemma update_put_put (ts : ℚ) (i : AccountInfo) :
    (update_put_timestamp ts i).put_timestamp = max i.put_timestamp ts := rfl

lemma update_put_delete (ts : ℚ) (i : AccountInfo) :
    (update_put_timestamp ts i).delete_timestamp = i.delete_timestamp := rfl

lemma update_put_status (ts : ℚ) (i : AccountInfo) :
    (update_put_timestamp ts i).status_deleted = i.status_deleted := rfl

lemma initRecord_put (ts : ℚ) : (initRecord ts).put_timestamp = ts := rfl

lemma initRecord_delete (ts : ℚ) : (initRecord ts).delete_timestamp = 0 := rfl

lemma initRecord_status (ts : ℚ) : (initRecord ts).status_deleted = false := rfl


theorem C1_tombstone_wins (conf : Conf) (now : ℚ) (req : ContainerPutReq)
    (info : AccountInfo) (p d oc bu : String)
    (hp : req.xPutTimestamp = some p) (hd : req.xDeleteTimestamp = some d)
    (hoc : req.xObjectCount = some oc) (hbu : req.xBytesUsed = some bu)
    (hguard : strLower (req.xOverrideDeleted.getD "no") = "yes" ∨
      is_deleted (some info) = false)
    (hlen : p.length = d.length)
    (hpd : p.data.all Char.isDigit = true)
    (hdd : d.data.all Char.isDigit = true) :
    (PUT_container conf true now req (some info)).2 =
      .resp (mkResp (if strToNat p < strToNat d then 204 else 201)) := by
  have hnum := string_lt_iff_strToNat hlen hpd hdd
  have hguard' : ((strLower (req.xOverrideDeleted.getD "no") != "yes") &&
      is_deleted (some info)) = false := by
    rcases hguard with hg | hg <;> simp [hg]
  unfold PUT_container
  rw [hp, hd, hoc, hbu]
  simp only [Option.isNone_some, Bool.and_false, Bool.true_eq_false, Bool.false_eq_true,
    if_false, ite_false, hguard']
  by_cases hlt : strToNat p < strToNat d
  · rw [if_pos (hnum.mpr hlt), if_pos hlt]
  · rw [if_neg (fun hc => hlt (hnum.mp hc)), if_neg hlt]


/-- An active, never-deleted account record used as concrete input. -/
def info0 : AccountInfo :=
  { created_at := 1, put_timestamp := 1, delete_timestamp := 0,
    status_deleted := false, metadata := [], containers := [] }

theorem C1_counterexample :
    (PUT_container ⟨".", none⟩ true 0
        { account := "a", container := "c", xTimestamp := none,
          xPutTimestamp := some "10", xDeleteTimestamp := some "9",
          xObjectCount := some "17", xBytesUsed := some "42",
          xOverrideDeleted := none }
        (some info0)).2
      = .resp (mkResp 204) ∧ ¬ ((9 : ℚ) > 10) := by
  constructor
  · have hlt : ("10" : String) < "9" :=
      String.lt_iff_toList_lt.mpr (List.Lex.rel (by decide))
    have hdel : is_deleted (some info0) = false := by decide
    unfold PUT_container
    simp only [Option.isNone_some, Bool.and_false, Bool.true_eq_false,
      Bool.false_eq_true, if_false, ite_false, hdel]
    rw [if_pos hlt]
  · norm_num


theorem C1_witness :
    (PUT_container ⟨".", none⟩ true 0
        { account := "a", container := "c", xTimestamp := none,
          xPutTimestamp := some "10", xDeleteTimestamp := some "09",
          xObjectCount := some "17", xBytesUsed := some "42",
          xOverrideDeleted := none }
        (some info0)).2 = .resp (mkResp 201) := by
  have h := C1_tombstone_wins ⟨".", none⟩ 0
    { account := "a", container := "c", xTimestamp := none,
      xPutTimestamp := some "10", xDeleteTimestamp := some "09",
      xObjectCount := some "17", xBytesUsed := some "42",
      xOverrideDeleted := none }
    info0 "10" "09" "17" "42" rfl rfl rfl rfl (Or.inr (by decide)) rfl
    (by decide) (by decide)
  rw [h]
  decide

/-- C4: a DELETE with a valid timestamp on an already-deleted record
returns the tombstoned 404 response and leaves the stored record
unchanged; on a non-deleted record it tombstones at the given timestamp
(the stored delete timestamp becomes exactly the supplied one) and
returns 204. -/
theorem C4_delete_idempotent (v : HeaderVal) (hv : check_float v = true)
    (info : AccountInfo) :
    (is_deleted (some info) = true →
        DELETE true (some v) (some info)
          = (some info, .resp (deletedResponse (some info) 404)))
    ∧ (is_deleted (some info) = false →
        DELETE true (some v) (some info)
          = (some (delete_db v.val info),
             .resp (deletedResponse (some (delete_db v.val info)) 204))
        ∧ (delete_db v.val info).delete_timestamp = v.val) := by
  constructor
  · intro hdel
    unfold DELETE
    simp [hv, hdel]
  · intro hdel
    constructor
    · unfold DELETE
      simp [hv, hdel]
    · rfl

theorem C4_witness :
    (check_float (.num 7) = true ∧ is_deleted (some info0) = false)
    ∧ DELETE true (some (.num 7)) (some info0)
        = (some (delete_db (HeaderVal.val (.num 7)) info0),
           .resp (deletedResponse (some (delete_db (HeaderVal.val (.num 7)) info0)) 204)) :=
  ⟨⟨rfl, by decide⟩,
    ((C4_delete_idempotent (.num 7) rfl info0).2 (by decide)).1⟩

/-- C5: the dispatcher answers 405 Method Not Allowed exactly when the
method is not a publicly accessible handler, or the configured
replication mode mismatches the handler: the replication-marked handler
(REPLICATE) runs only when the mode is unspecified or replication-only,
and every other handler only when the mode is unspecified or
normal-only. -/
theorem C5_dispatcher_gate (rs : Option Bool) (m : String)
    (run : HandlerResult) :
    (methodAllowed rs m = false → dispatch rs m run = mkResp 405)
    ∧ (methodAllowed rs m = true → dispatch rs m run = serveResult run)
    ∧ (methodAllowed rs m = true ↔
        (isPublicMethod m = true ∧
          ((isReplicationMethod m = true ∧ (rs = none ∨ rs = some true)) ∨
           (isReplicationMethod m = false ∧ (rs = none ∨ rs = some false))))) := by
  refine ⟨?_, ?_, ?_⟩
  · intro h
    unfold dispatch
    simp [h]
  · intro h
    unfold dispatch
    simp [h]
  · unfold methodAllowed
    cases hrep : isReplicationMethod m <;>
      rcases rs with _ | b <;> simp [hrep]

theorem C5_witness :
    dispatch (some false) "REPLICATE" (.resp (mkResp 200)) = mkResp 405 :=
  (C5_dispatcher_gate (some false) "REPLICATE" (.resp (mkResp 200))).1 (by decide)

/-- C6 counterexample: an account PUT whose `X-Timestamp` header is
missing is answered with 500 Internal Server Error (the handler's
`KeyError` is converted by the dispatcher's catch-all), not with the 400
Bad Request the claim requires. -/
theorem C6_counterexample :
    serveResult (PUT_account true ⟨none, []⟩ none).2 = mkResp 500
    ∧ mkResp 500 ≠ mkResp 400 := by
  constructor
  · rfl
  · decide

/-- C6 (amended): an account PUT whose `X-Timestamp` header is missing or
not a valid numeric timestamp is answered with 500 Internal Server Error —
the handler performs no timestamp validation, so the `KeyError` /
`ValueError` escapes to the dispatcher's catch-all — and the stored record
is unchanged.  (DELETE and POST, by contrast, validate the header and
answer 400.) -/
theorem C6_put_bad_timestamp_500 (req : AccountPutReq) (st : AccountState)
    (h : req.xTimestamp = none ∨ req.xTimestamp = some .malformed) :
    serveResult (PUT_account true req st).2 = mkResp 500
    ∧ (PUT_account true req st).1 = st := by
  rcases h with h | h <;>
    · unfold PUT_account
      simp [h, normalize_timestamp, serveResult]

theorem C6_witness :
    serveResult (PUT_account true ⟨some .malformed, []⟩ (some info0)).2 = mkResp 500
    ∧ (PUT_account true ⟨some .malformed, []⟩ (some info0)).1 = some info0 :=
  C6_put_bad_timestamp_500 ⟨some .malformed, []⟩ (some info0) (Or.inr rfl)


/-- C2 (amended): for an account PUT on an existing record: a record
carrying the explicit recently-deleted status marker is refused with 403
Forbidden; otherwise `put_timestamp` advances to the max of the stored and
supplied values (even on the conflict path), and on a previously-deleted
record a supplied timestamp T3 strictly below the stored delete timestamp
yields 409 Conflict, while T3 ≥ delete_timestamp resurrects the record to
Active and returns 201; a PUT on a non-deleted record returns 202. -/
theorem C2_account_put_resurrection (req : AccountPutReq) (info : AccountInfo)
    (t3 : ℚ) (hts : req.xTimestamp = some (.num t3)) :
    (info.status_deleted = true →
        PUT_account true req (some info)
          = (some info, .resp (deletedResponse (some info) 403)))
    ∧ (info.status_deleted = false →
        (PUT_account true req (some info)).1.map AccountInfo.put_timestamp
          = some (max info.put_timestamp t3))
    ∧ (info.status_deleted = false →
        info.put_timestamp < info.delete_timestamp →
        t3 < info.delete_timestamp →
        (PUT_account true req (some info)).2 = .resp (mkResp 409))
    ∧ (info.status_deleted = false →
        info.put_timestamp < info.delete_timestamp →
        info.delete_timestamp ≤ t3 →
        (PUT_account true req (some info)).2 = .resp (mkResp 201)
        ∧ is_deleted (PUT_account true req (some info)).1 = false)
    ∧ (info.status_deleted = false →
        info.delete_timestamp ≤ info.put_timestamp →
        (PUT_account true req (some info)).2 = .resp (mkResp 202)) := by
  refine ⟨?_, ?_, ?_, ?_, ?_⟩
  · intro hsd
    unfold PUT_account
    simp [hts, normalize_timestamp, hsd]
  · intro hsd
    unfold PUT_account
    simp only [hts, normalize_timestamp, hsd, Bool.true_eq_false,
      Bool.false_eq_true, if_false, ite_false, reduceIte]
    by_cases h2 : is_deleted (some (update_put_timestamp t3 info)) = true
    · simp only [h2, if_true, reduceIte]
      simp [update_put_put]
    · simp only [Bool.not_eq_true] at h2
      simp only [h2, Bool.false_eq_true, if_false, ite_false, reduceIte]
      simp [applyMeta_put_timestamp, update_put_put]
  · intro hsd hdel ht3
    unfold PUT_account
    have h2 : is_deleted (some (update_put_timestamp t3 info)) = true := by
      simp only [is_deleted_some, update_put_put, update_put_delete,
        decide_eq_true_eq, max_lt_iff]
      exact ⟨hdel, ht3⟩
    simp [hts, normalize_timestamp, hsd, h2]
  · intro hsd hdel ht3
    have h1 : is_deleted (some info) = true := by
      simp only [is_deleted_some, decide_eq_true_eq]
      exact hdel
    have h2 : is_deleted (some (update_put_timestamp t3 info)) = false := by
      simp only [is_deleted_some, update_put_put, update_put_delete,
        decide_eq_false_iff_not, not_lt, le_max_iff]
      exact Or.inr ht3
    constructor
    · unfold PUT_account
      simp [hts, normalize_timestamp, hsd, h1, h2]
    · unfold PUT_account
      simp only [hts, normalize_timestamp, hsd, h1, h2, Bool.true_eq_false,
        Bool.false_eq_true, if_false, ite_false, if_true, reduceIte]
      simp only [is_deleted_some, applyMeta_put_timestamp,
        applyMeta_delete_timestamp, update_put_put, update_put_delete,
        decide_eq_false_iff_not, not_lt, le_max_iff]
      exact Or.inr ht3
  · intro hsd hdel
    have h1 : is_deleted (some info) = false := by
      simp only [is_deleted_some, decide_eq_false_iff_not, not_lt]
      exact hdel
    have h2 : is_deleted (some (update_put_timestamp t3 info)) = false := by
      simp only [is_deleted_some, update_put_put, update_put_delete,
        decide_eq_false_iff_not, not_lt, le_max_iff]
      exact Or.inl hdel
    unfold PUT_account
    simp [hts, normalize_timestamp, hsd, h1, h2]

/-- C2 counterexample: an existing record with `put_timestamp = 1`,
`delete_timestamp = 5`, no status marker — a deleted, resurrectable
account.  A PUT with T3 = 5 satisfies T3 ≤ delete_timestamp, so the claim
requires 409 Conflict; the code advances `put_timestamp` to max(1,5) = 5,
after which the record is no longer deleted (5 > 5 is false), and returns
201 Created. -/
theorem C2_counterexample :
    ((5 : ℚ) ≤ 5)
    ∧ (PUT_account true ⟨some (.num 5), []⟩
        (some { created_at := 1, put_timestamp := 1, delete_timestamp := 5,
                status_deleted := false, metadata := [], containers := [] })).2
      = .resp (mkResp 201) := by
  constructor
  · norm_num
  · decide

theorem C2_witness :
    (PUT_account true ⟨some (.num 6), []⟩
        (some { created_at := 1, put_timestamp := 1, delete_timestamp := 5,
                status_deleted := false, metadata := [], containers := [] })).2
      = .resp (mkResp 201)
    ∧ is_deleted (PUT_account true ⟨some (.num 6), []⟩
        (some { created_at := 1, put_timestamp := 1, delete_timestamp := 5,
                status_deleted := false, metadata := [], containers := [] })).1
      = false :=
  (C2_account_put_resurrection ⟨some (.num 6), []⟩
    { created_at := 1, put_timestamp := 1, delete_timestamp := 5,
      status_deleted := false, metadata := [], containers := [] }
    6 rfl).2.2.2.1 rfl (by norm_num) (by norm_num)


/-- C3: PUTs converge to the max timestamp: two PUTs with timestamps t1
then t2 starting from no record store put_timestamp = max(t1,t2) — so for
T1 < T2 both application orders converge to the same max — and the second
PUT returns 202 Accepted; moreover a PUT whose timestamp is smaller than
the stored put_timestamp of an existing active record leaves
put_timestamp unchanged and still returns 202 Accepted, not 201
Created. -/
theorem C3_monotonic_put (t1 t2 : ℚ) (h1 : 0 ≤ t1) (_h2 : 0 ≤ t2)
    (hs1 hs2 hs3 : List (String × String)) (info : AccountInfo) (t : ℚ)
    (hmark : info.status_deleted = false)
    (hact : is_deleted (some info) = false)
    (hsmall : t < info.put_timestamp) :
    ((PUT_account true ⟨some (.num t2), hs2⟩
        (PUT_account true ⟨some (.num t1), hs1⟩ none).1).1.map
          AccountInfo.put_timestamp = some (max t1 t2)
      ∧ (PUT_account true ⟨some (.num t2), hs2⟩
          (PUT_account true ⟨some (.num t1), hs1⟩ none).1).2
        = .resp (mkResp 202))
    ∧ ((PUT_account true ⟨some (.num t), hs3⟩ (some info)).1.map
          AccountInfo.put_timestamp = some info.put_timestamp
      ∧ (PUT_account true ⟨some (.num t), hs3⟩ (some info)).2
        = .resp (mkResp 202)) := by
  constructor
  · have hfirst : (PUT_account true ⟨some (.num t1), hs1⟩ none).1
        = some (applyMeta hs1 t1 (initRecord t1)) := by
      unfold PUT_account
      simp [normalize_timestamp]
    rw [hfirst]
    have hput : (applyMeta hs1 t1 (initRecord t1)).put_timestamp = t1 := by
      rw [applyMeta_put_timestamp, initRecord_put]
    have hdel : (applyMeta hs1 t1 (initRecord t1)).delete_timestamp = 0 := by
      rw [applyMeta_delete_timestamp, initRecord_delete]
    have hmk : (applyMeta hs1 t1 (initRecord t1)).status_deleted = false := by
      rw [applyMeta_status_deleted, initRecord_status]
    have hd1 : is_deleted (some (applyMeta hs1 t1 (initRecord t1))) = false := by
      simp only [is_deleted_some, hput, hdel, decide_eq_false_iff_not, not_lt]
      exact h1
    have hd2 : is_deleted
        (some (update_put_timestamp t2 (applyMeta hs1 t1 (initRecord t1)))) = false := by
      simp only [is_deleted_some, update_put_put, update_put_delete, hput, hdel,
        decide_eq_false_iff_not, not_lt, le_max_iff]
      exact Or.inl h1
    constructor
    · unfold PUT_account
      simp only [normalize_timestamp, hmk, hd1, hd2, Bool.true_eq_false,
        Bool.false_eq_true, if_false, ite_false, reduceIte]
      simp [applyMeta_put_timestamp, update_put_put, hput, initRecord_put]
    · unfold PUT_account
      simp [normalize_timestamp, hmk, hd1, hd2]
  · have hd2 : is_deleted (some (update_put_timestamp t info)) = false := by
      simp only [is_deleted_some, update_put_put, update_put_delete,
        decide_eq_false_iff_not, not_lt, le_max_iff]
      left
      simp only [is_deleted_some, decide_eq_false_iff_not, not_lt] at hact
      exact hact
    have hmax : max info.put_timestamp t = info.put_timestamp :=
      max_eq_left (le_of_lt hsmall)
    constructor
    · unfold PUT_account
      simp only [normalize_timestamp, hmark, hact, hd2, Bool.true_eq_false,
        Bool.false_eq_true, if_false, ite_false, reduceIte]
      simp [applyMeta_put_timestamp, update_put_put, hmax]
    · unfold PUT_account
      simp [normalize_timestamp, hmark, hact, hd2]

theorem C3_witness :
    ((0:ℚ) ≤ 100 ∧ (0:ℚ) ≤ 50 ∧ info0.status_deleted = false
      ∧ is_deleted (some info0) = false ∧ (0:ℚ) < info0.put_timestamp)
    ∧ (PUT_account true ⟨some (.num 50), []⟩
        (PUT_account true ⟨some (.num 100), []⟩ none).1).1.map
          AccountInfo.put_timestamp = some (max 100 50)
    ∧ (PUT_account true ⟨some (.num 0), []⟩ (some info0)).2
        = .resp (mkResp 202) := by
  have h := C3_monotonic_put 100 50 (by norm_num) (by norm_num) [] [] []
    info0 0 rfl (by decide) (by norm_num [info0])
  exact ⟨⟨by norm_num, by norm_num, rfl, by decide, by norm_num [info0]⟩,
    h.1.1, h.2.2⟩


/-- Whether a GET outcome executed the broker's listing query. -/
def GetResult.isListing : GetResult → Bool
  | .listing _ _ _ _ _ => true
  | _ => false


lemma GETrest_ne_badLimit (c m : Bool) (req : GetReq) (lim : ℕ)
    (st : AccountState) : GETrest c m req lim st ≠ .badLimit := by
  unfold GETrest
  split_ifs <;> simp

lemma GETrest_listing_limit {c m : Bool} {req : GetReq} {lim L : ℕ}
    {st : AccountState} {mk : String} {em pfx dl : Option String}
    (h : GETrest c m req lim st = .listing L mk em pfx dl) : L = lim := by
  unfold GETrest at h
  split_ifs at h
  any_goals simp at h
  exact h.1.symm

/-- C7: a GET whose delimiter is longer than one character or has code
point above 254, or whose digit limit parameter exceeds the hard maximum,
is answered 412 Precondition Failed and the broker listing query is never
executed. -/
theorem C7_listing_cap (ctypeOk mountOk : Bool) (req : GetReq)
    (st : AccountState)
    (h : (∃ dl, req.delimiter = some dl ∧
            (1 < dl.length ∨ 254 < (dl.data.headD 'a').toNat))
      ∨ (∃ gl, req.limit = some gl ∧ isdigit gl = true ∧
            ACCOUNT_LISTING_LIMIT < strToNat gl)) :
    (GET ctypeOk mountOk req st).status = 412
    ∧ (GET ctypeOk mountOk req st).isListing = false := by
  have hres : GET ctypeOk mountOk req st = .badDelimiter
      ∨ GET ctypeOk mountOk req st = .badLimit := by
    by_cases hdb : (match req.delimiter with
      | none => false
      | some d => !d.isEmpty &&
          (decide (1 < d.length) || decide (254 < (d.data.headD 'a').toNat))) = true
    · left
      unfold GET
      simp only [hdb, if_true, reduceIte]
    · right
      rcases h with ⟨dl, hdl, hbad⟩ | ⟨gl, hgl, hdig, hlim⟩
      · exfalso
        apply hdb
        rw [hdl]
        have hne : (!dl.isEmpty) = true := by
          cases hempty : dl.isEmpty
          · rfl
          · exfalso
            rw [String.isEmpty_iff] at hempty
            subst hempty
            rcases hbad with hb | hb
            · rw [show ("" : String).length = 0 from rfl] at hb
              omega
            · rw [show (("" : String).data.headD 'a').toNat = 97 from rfl] at hb
              omega
        show (!dl.isEmpty &&
          (decide (1 < dl.length) || decide (254 < (dl.data.headD 'a').toNat))) = true
        rw [hne, Bool.true_and]
        rcases hbad with hb | hb
        · rw [decide_eq_true hb, Bool.true_or]
        · rw [decide_eq_true hb, Bool.or_true]
      · unfold GET
        simp only [hdb, Bool.false_eq_true, if_false, ite_false, reduceIte, hgl,
          hdig, if_true, hlim]
  rcases hres with hres | hres <;> rw [hres] <;> exact ⟨rfl, rfl⟩

theorem C7_witness :
    (GET true true
      { qPrefix := none, delimiter := some "ab", limit := none,
        marker := none, endMarker := none } (some info0)).status = 412
    ∧ (GET true true
      { qPrefix := none, delimiter := some "ab", limit := none,
        marker := none, endMarker := none } (some info0)).isListing = false :=
  C7_listing_cap true true
    { qPrefix := none, delimiter := some "ab", limit := none,
      marker := none, endMarker := none } (some info0)
    (Or.inl ⟨"ab", rfl, Or.inl (by decide)⟩)

/-- C8: a container PUT against an existing account record that is
deleted is answered 404 Not Found with no mutation, unless the request
carries `X-Account-Override-Deleted` with (case-insensitive) value
`yes`, in which case the container upsert proceeds and the response is
201 or 204. -/
theorem C8_override_deleted (conf : Conf) (now : ℚ) (req : ContainerPutReq)
    (info : AccountInfo) (p d oc bu : String)
    (hp : req.xPutTimestamp = some p) (hd : req.xDeleteTimestamp = some d)
    (hoc : req.xObjectCount = some oc) (hbu : req.xBytesUsed = some bu)
    (hdel : is_deleted (some info) = true) :
    (strLower (req.xOverrideDeleted.getD "no") ≠ "yes" →
        PUT_container conf true now req (some info)
          = (some info, .resp (mkResp 404)))
    ∧ (strLower (req.xOverrideDeleted.getD "no") = "yes" →
        (PUT_container conf true now req (some info)).1
          = some (put_container req.container p d oc bu info)
        ∧ ((PUT_container conf true now req (some info)).2
              = .resp (mkResp 204)
          ∨ (PUT_container conf true now req (some info)).2
              = .resp (mkResp 201))) := by
  constructor
  · intro hov
    unfold PUT_container
    have hg : ((strLower (req.xOverrideDeleted.getD "no") != "yes")
        && is_deleted (some info)) = true := by
      simp [hov, hdel]
    simp only [Option.isNone_some, Bool.and_false, Bool.true_eq_false,
      Bool.false_eq_true, if_false, ite_false, reduceIte, hg, if_true]
  · intro hov
    unfold PUT_container
    have hg : ((strLower (req.xOverrideDeleted.getD "no") != "yes")
        && is_deleted (some info)) = false := by
      simp [hov]
    simp only [Option.isNone_some, Bool.and_false, Bool.true_eq_false,
      Bool.false_eq_true, if_false, ite_false, reduceIte, hg, hp, hd, hoc, hbu]
    by_cases hlt : p < d
    · simp [hlt]
    · simp [hlt]

theorem C8_witness :
    (PUT_container ⟨".", none⟩ true 0
        { account := "a", container := "c", xTimestamp := none,
          xPutTimestamp := some "2", xDeleteTimestamp := some "1",
          xObjectCount := some "0", xBytesUsed := some "0",
          xOverrideDeleted := none }
        (some { created_at := 1, put_timestamp := 1, delete_timestamp := 5,
                status_deleted := false, metadata := [], containers := [] }))
      = (some { created_at := 1, put_timestamp := 1, delete_timestamp := 5,
                status_deleted := false, metadata := [], containers := [] },
         .resp (mkResp 404)) :=
  (C8_override_deleted ⟨".", none⟩ 0
    { account := "a", container := "c", xTimestamp := none,
      xPutTimestamp := some "2", xDeleteTimestamp := some "1",
      xObjectCount := some "0", xBytesUsed := some "0",
      xOverrideDeleted := none }
    { created_at := 1, put_timestamp := 1, delete_timestamp := 5,
      status_deleted := false, metadata := [], containers := [] }
    "2" "1" "0" "0" rfl rfl rfl rfl (by decide)).1 (by decide)

/-- C10: a GET whose limit parameter is present but not a digit string is
handled exactly as if the parameter were absent — the default
hard-maximum limit is used, the request is never rejected with the
over-limit 412, and any executed listing uses the default limit. -/
theorem C10_nondigit_limit_ignored (ctypeOk mountOk : Bool) (req : GetReq)
    (st : AccountState) (s : String) (hl : req.limit = some s)
    (hnd : isdigit s = false) :
    GET ctypeOk mountOk req st
      = GET ctypeOk mountOk { req with limit := none } st
    ∧ GET ctypeOk mountOk req st ≠ .badLimit
    ∧ (∀ L m em pfx dl, GET ctypeOk mountOk req st = .listing L m em pfx dl →
        L = ACCOUNT_LISTING_LIMIT) := by
  have heq : GET ctypeOk mountOk req st
      = GET ctypeOk mountOk { req with limit := none } st := by
    unfold GET
    simp only [hl, hnd, Bool.false_eq_true, if_false, ite_false, reduceIte]
    rfl
  refine ⟨heq, ?_, ?_⟩
  · rw [heq]
    unfold GET
    cases hdb : (match req.delimiter with
      | none => false
      | some d => !d.isEmpty &&
          (decide (1 < d.length) || decide (254 < (d.data.headD 'a').toNat)))
    · simp only [Bool.false_eq_true, if_false, ite_false, reduceIte]
      exact GETrest_ne_badLimit ctypeOk mountOk _ _ st
    · simp only [if_true, reduceIte]
      simp
  · intro L m em pfx dl hres
    rw [heq] at hres
    unfold GET at hres
    cases hdb : (match req.delimiter with
      | none => false
      | some d => !d.isEmpty &&
          (decide (1 < d.length) || decide (254 < (d.data.headD 'a').toNat)))
    · rw [hdb] at hres
      simp only [Bool.false_eq_true, if_false, ite_false, reduceIte] at hres
      exact GETrest_listing_limit hres
    · rw [hdb] at hres
      simp only [if_true, reduceIte] at hres
      exact absurd hres (by simp)

theorem C10_witness :
    GET true true
      { qPrefix := none, delimiter := none, limit := some "-1",
        marker := none, endMarker := none } (some info0)
      = GET true true
      { qPrefix := none, delimiter := none, limit := none,
        marker := none, endMarker := none } (some info0) :=
  (C10_nondigit_limit_ignored true true
    { qPrefix := none, delimiter := none, limit := some "-1",
      marker := none, endMarker := none } (some info0) "-1" rfl (by decide)).1


lemma GETrest_notFound {c m : Bool} {req : GetReq} {lim : ℕ}
    {st : AccountState} {r : Response}
    (h : GETrest c m req lim st = .notFound r) : r = deletedResponse st 404 := by
  unfold GETrest at h
  split_ifs at h
  any_goals simp at h
  exact h.symm

/-- A deleted record carrying the explicit recently-deleted marker, used
as concrete input. -/
def infoMarked : AccountInfo :=
  { created_at := 1, put_timestamp := 1, delete_timestamp := 5,
    status_deleted := true, metadata := [], containers := [] }

/-- C9: on every 404 response from DELETE, HEAD, GET or POST, the
`X-Account-Status: Deleted` header is present exactly when the account
record physically exists and carries the deleted status marker; a 404 for
a record that never existed carries no such header. -/
theorem C9_status_header_on_404 (mountOk ctypeOk : Bool)
    (v : Option HeaderVal) (hs : List (String × String)) (greq : GetReq)
    (st : AccountState) :
    (∀ r, (DELETE mountOk v st).2 = .resp r → r.status = 404 →
        (r.accountStatus = some "Deleted" ↔
          ∃ i, st = some i ∧ i.status_deleted = true))
    ∧ (∀ r, HEAD ctypeOk mountOk st = .resp r → r.status = 404 →
        (r.accountStatus = some "Deleted" ↔
          ∃ i, st = some i ∧ i.status_deleted = true))
    ∧ (∀ r, GET ctypeOk mountOk greq st = .notFound r → r.status = 404 →
        (r.accountStatus = some "Deleted" ↔
          ∃ i, st = some i ∧ i.status_deleted = true))
    ∧ (∀ r, (POST mountOk v hs st).2 = .resp r → r.status = 404 →
        (r.accountStatus = some "Deleted" ↔
          ∃ i, st = some i ∧ i.status_deleted = true)) := by
  refine ⟨?_, ?_, ?_, ?_⟩
  · intro r hr hstat
    unfold DELETE at hr
    rcases mountOk with _ | _
    · simp at hr
      subst hr
      simp [mkResp] at hstat
    · rcases v with _ | hv
      · simp at hr
        subst hr
        simp [mkResp] at hstat
      · rcases hv with q | _
        · rcases st with _ | info
          · simp [check_float] at hr
            subst hr
            exact deletedResponse_header none 404
          · rcases hdel : is_deleted (some info)
            · simp [check_float, hdel] at hr
              subst hr
              rw [deletedResponse_status] at hstat
              omega
            · simp [check_float, hdel] at hr
              subst hr
              exact deletedResponse_header (some info) 404
        · simp [check_float] at hr
          subst hr
          simp [mkResp] at hstat
  · intro r hr hstat
    unfold HEAD at hr
    rcases ctypeOk with _ | _
    · simp at hr
      subst hr
      simp [mkResp] at hstat
    · rcases mountOk with _ | _
      · simp at hr
        subst hr
        simp [mkResp] at hstat
      · rcases hdel : is_deleted st
        · simp [hdel] at hr
          subst hr
          simp [mkResp] at hstat
        · simp [hdel] at hr
          subst hr
          exact deletedResponse_header st 404
  · intro r hres hstat
    unfold GET at hres
    cases hdb : (match greq.delimiter with
      | none => false
      | some d => !d.isEmpty &&
          (decide (1 < d.length) || decide (254 < (d.data.headD 'a').toNat)))
    · rw [hdb] at hres
      simp only [Bool.false_eq_true, if_false, ite_false, reduceIte] at hres
      rcases hlim : greq.limit with _ | gl
      · rw [hlim] at hres
        rw [GETrest_notFound hres]
        exact deletedResponse_header st 404
      · rw [hlim] at hres
        rcases hdig : isdigit gl
        · simp only [hdig, Bool.false_eq_true, if_false, ite_false,
            reduceIte] at hres
          rw [GETrest_notFound hres]
          exact deletedResponse_header st 404
        · simp only [hdig, if_true, reduceIte] at hres
          by_cases hlt : ACCOUNT_LISTING_LIMIT < strToNat gl
          · rw [if_pos hlt] at hres
            simp at hres
          · rw [if_neg hlt] at hres
            rw [GETrest_notFound hres]
            exact deletedResponse_header st 404
    · rw [hdb] at hres
      simp at hres
  · intro r hr hstat
    unfold POST at hr
    rcases v with _ | hv
    · simp at hr
      subst hr
      simp [mkResp] at hstat
    · rcases hv with q | _
      · rcases mountOk with _ | _
        · simp [check_float] at hr
          subst hr
          simp [mkResp] at hstat
        · rcases st with _ | info
          · simp [check_float] at hr
            subst hr
            exact deletedResponse_header none 404
          · rcases hdel : is_deleted (some info)
            · simp [check_float, hdel] at hr
              subst hr
              simp [mkResp] at hstat
            · simp [check_float, hdel] at hr
              subst hr
              exact deletedResponse_header (some info) 404
      · simp [check_float] at hr
        subst hr
        simp [mkResp] at hstat

theorem C9_witness :
    (DELETE true (some (.num 7)) (some infoMarked)).2
      = .resp (deletedResponse (some infoMarked) 404)
    ∧ ((deletedResponse (some infoMarked) 404).accountStatus = some "Deleted"
        ↔ ∃ i, (some infoMarked : AccountState) = some i
            ∧ i.status_deleted = true) := by
  constructor
  · decide
  · exact (C9_status_header_on_404 true true (some (.num 7)) []
      { qPrefix := none, delimiter := none, limit := none, marker := none,
        endMarker := none }
      (some infoMarked)).1 (deletedResponse (some infoMarked) 404)
      (by decide) (by decide)


end SwiftAccount
